import Mathlib

/-!
# Verification of the prompt-enhancer automation/resource layer

Shallow embedding of the core of `prompt-enhancer-service`:

* `src/enhancer.py` — the Resource Lifecycle Manager (timestamped durable
  temp-file pairs, transient temp-file pairs, cleanup, separator stripping)
  and the Mode Coordinator (`EnhancerCoordinator.get_service`).
* `src/utils/gemini_client.py` — the Automation Session Manager
  (`GeminiClient.send_query` retry loop, `_wait_for_response` stability
  polling, `_extract_response` length validation).

The filesystem is modelled as a `Finset String` of existing paths; browser
effects are modelled by environments that fix the outcome of each automation
step, and `send_query` additionally returns the trace of automation actions
it performed so that "no browser interaction happened" is a statement about
the model.
-/

namespace PromptEnhancer

/-- Decidable equality for `Except`, so that concrete runs of the fallible
operations can be checked by evaluation. -/
instance {ε α : Type} [DecidableEq ε] [DecidableEq α] : DecidableEq (Except ε α) :=
  fun a b =>
    match a, b with
    | .error e, .error e' =>
      if h : e = e' then .isTrue (by rw [h])
      else .isFalse (fun hc => h (Except.error.inj hc))
    | .error _, .ok _ => .isFalse (fun hc => Except.noConfusion hc)
    | .ok _, .error _ => .isFalse (fun hc => Except.noConfusion hc)
    | .ok v, .ok v' =>
      if h : v = v' then .isTrue (by rw [h])
      else .isFalse (fun hc => h (Except.ok.inj hc))

/-! ## String helpers (Python primitives on `List Char`)

Python's `str.strip`/`str.lower` are modelled at the character-list level
(ASCII case folding, which is exact for the inputs the service handles). -/

/-- Python `str.strip()`: drop whitespace from both ends. -/
def pyStrip (s : List Char) : List Char :=
  ((s.dropWhile Char.isWhitespace).reverse.dropWhile Char.isWhitespace).reverse

/-- Python `str.lower()` (ASCII case folding). -/
def pyLower (s : List Char) : List Char :=
  s.map Char.toLower

/-- Python `str.splitlines()` restricted to `'\n'` line boundaries (the only
boundary occurring in the texts the service processes): split at every
newline, no terminator kept, no trailing empty line. -/
def pySplitlinesGo : List Char → List Char → List (List Char)
  | [], cur => if cur.isEmpty then [] else [cur.reverse]
  | c :: rest, cur =>
    if c = '\n' then cur.reverse :: pySplitlinesGo rest []
    else pySplitlinesGo rest (c :: cur)

def pySplitlines (s : List Char) : List (List Char) :=
  pySplitlinesGo s []

/-- Python `"\n".join(lines)`. -/
def joinLines : List (List Char) → List Char
  | [] => []
  | [l] => l
  | l :: ls => l ++ '\n' :: joinLines ls

/-! ## Resource Lifecycle Manager (`src/enhancer.py`) -/

/-- `_TEMP_CREATION_RETRIES = 5` -/
def _TEMP_CREATION_RETRIES : Nat := 5

/-- `TempFilePair` dataclass: `input_path`, `output_path`, `persist`. -/
structure TempFilePair where
  input_path : String
  output_path : String
  persist : Bool
deriving DecidableEq, Repr

/-- `os.remove` / `Path.unlink` with `contextlib.suppress(FileNotFoundError)`:
removing an absent path is a no-op, never an error. -/
def unlinkSuppressMissing (fs : Finset String) (path : String) : Finset String :=
  fs.erase path

/-- `TempFilePair.maybe_cleanup`: when the pair is not marked persistent,
unlink both paths, suppressing `FileNotFoundError` for each. -/
def maybe_cleanup (p : TempFilePair) (fs : Finset String) : Finset String :=
  if p.persist then fs
  else unlinkSuppressMissing (unlinkSuppressMissing fs p.input_path) p.output_path

/-- One loop iteration of `_create_timestamped_pair`: build the `_in`/`_out`
names from the attempt's timestamp and `os.open(..., O_CREAT|O_WRONLY|O_EXCL)`
each in turn.  On `FileExistsError` (from either open) the `except` branch
removes `input_path` (suppressing `FileNotFoundError`) and reports failure. -/
def tryCreatePair (timestamp : String) (fs : Finset String) :
    Option (String × String) × Finset String :=
  let input_path := timestamp ++ "_in.txt"
  let output_path := timestamp ++ "_out.txt"
  if input_path ∈ fs then
    -- O_EXCL open of input_path fails; os.remove(input_path)
    (none, fs.erase input_path)
  else
    let fs1 := insert input_path fs
    if output_path ∈ fs1 then
      -- O_EXCL open of output_path fails; os.remove(input_path)
      (none, fs1.erase input_path)
    else
      (some (input_path, output_path), insert output_path fs1)

/-- The retry loop of `_create_timestamped_pair`: up to `fuel` attempts,
attempt `k` using the freshly generated timestamp `ts k`; when the budget is
exhausted, `RuntimeError("failed to allocate temp files ...")`. -/
def createPairGo (ts : Nat → String) :
    Nat → Nat → Finset String → Except Unit (String × String) × Finset String
  | 0, _, fs => (.error (), fs)
  | fuel + 1, k, fs =>
    let r := tryCreatePair (ts k) fs
    match r.1 with
    | some pair => (.ok pair, r.2)
    | none => createPairGo ts fuel (k + 1) r.2

/-- `_create_timestamped_pair(root_dir)`, with the per-attempt timestamp
generator `ts` (`_timestamp_millis()` evaluated afresh on every attempt)
made explicit. -/
def _create_timestamped_pair (ts : Nat → String) (fs : Finset String) :
    Except Unit (String × String) × Finset String :=
  createPairGo ts _TEMP_CREATION_RETRIES 0 fs

/-- `maybe_create_temp_file_pair(auto_cleanup_enabled)`: `None` when auto
cleanup is enabled, otherwise a durable (persist) pair from
`_create_timestamped_pair`. -/
def maybe_create_temp_file_pair (auto_cleanup_enabled : Bool) (ts : Nat → String)
    (fs : Finset String) : Except Unit (Option TempFilePair) × Finset String :=
  if auto_cleanup_enabled then (.ok none, fs)
  else
    match _create_timestamped_pair ts fs with
    | (.ok (i, o), fs') => (.ok (some ⟨i, o, true⟩), fs')
    | (.error e, fs') => (.error e, fs')

/-- `_create_transient_file(suffix)`: `tempfile.NamedTemporaryFile` with
prefix `"promate-enhancer_"` and an independently drawn unique random
component (made explicit as `rand`). -/
def _create_transient_file (rand : String) (suffix : String) : String :=
  "promate-enhancer_" ++ rand ++ suffix

/-- `create_transient_temp_file_pair()`: two independent
`NamedTemporaryFile` allocations (`_in.txt` then `_out.txt`), marked
non-persistent.  `rand 0` and `rand 1` are the two random name components
drawn by `tempfile`. -/
def create_transient_temp_file_pair (rand : Nat → String) (fs : Finset String) :
    TempFilePair × Finset String :=
  let input_path := _create_transient_file (rand 0) "_in.txt"
  let output_path := _create_transient_file (rand 1) "_out.txt"
  (⟨input_path, output_path, false⟩, insert output_path (insert input_path fs))

/-- The association invariant claimed of a resource pair: the two paths share
a common allocation token and differ only in the `_in`/`_out` suffix. -/
def sharesAllocationToken (i o : String) : Prop :=
  ∃ token : String, i = token ++ "_in.txt" ∧ o = token ++ "_out.txt"

/-! ## `_extract_response` (`gemini_client.py` lines 419-426) -/

/-- `GeminiClient._extract_response`: keep the extracted text only when it is
non-empty and strictly longer than 10 characters, else
`RuntimeError("failed to extract Gemini response ...")`. -/
def _extract_response (text : String) : Except Unit String :=
  if text ≠ "" ∧ 10 < text.length then .ok text else .error ()

/-! ## `strip_separator_lines` (`src/enhancer.py` lines 109-123) -/

/-- Whether `re.compile(r"^#+\s*(start|end)\s*#+$", re.IGNORECASE)` matches
`line.strip()`.  The regex is deterministic on its alphabet (neither
alternative begins with `'#'` or whitespace), so greedy scanning is exact:
strip, require a leading run of `'#'`, optional whitespace, `start` or `end`
case-insensitively, optional whitespace, and a non-empty trailing run of
`'#'` reaching the end of the line. -/
def lineMatchesSeparator (line : List Char) : Bool :=
  match pyStrip line with
  | '#' :: tail =>
    let body := (tail.dropWhile (fun c => c = '#')).dropWhile Char.isWhitespace
    let lower := pyLower body
    let matchWord (w : List Char) : Bool :=
      if lower.take w.length = w then
        let rest := (lower.drop w.length).dropWhile Char.isWhitespace
        decide (rest ≠ []) && rest.all (fun c => c = '#')
      else false
    matchWord "start".data || matchWord "end".data
  | _ => false

/-- `strip_separator_lines(text)`: empty text is returned as is; otherwise
drop every line whose stripped form matches the separator pattern, re-join
with `'\n'`, and restore a trailing newline when the input ended with one
but the joined result does not. -/
def strip_separator_lines (text : String) : String :=
  if text.data = [] then text
  else
    let lines := pySplitlines text.data
    let filtered := lines.filter (fun line => ¬ lineMatchesSeparator line)
    let cleaned := joinLines filtered
    let withNl :=
      if text.data.getLast? = some '\n' ∧ cleaned.getLast? ≠ some '\n' then
        cleaned ++ ['\n']
      else cleaned
    ⟨withNl⟩

/-! ## Mode Coordinator (`src/enhancer.py` lines 126-162) -/

/-- `_normalize_mode(mode)`: `(mode or "").strip().lower()`. -/
def _normalize_mode (mode : String) : String :=
  ⟨pyLower (pyStrip mode.data)⟩

/-- The fixed supported set `{"command", "selenium"}`. -/
def SUPPORTED_MODES : List String := ["command", "selenium"]

/-- Errors raised by the coordinator: `ModeNotSupportedError` carrying the
rejected value, or an exception escaping a backend factory. -/
inductive ModeError where
  | modeNotSupported (mode : String)
  | factoryFailed
deriving DecidableEq, Repr

/-- Coordinator state: the validated default mode and the `_services` cache
(backend instances are identified by `Nat` ids). -/
structure EnhancerCoordinator where
  default_mode : String
  services : List (String × Nat)
deriving DecidableEq, Repr

/-- `EnhancerCoordinator.__init__`: normalize and validate the configured
default mode, failing construction on an unsupported value. -/
def mkEnhancerCoordinator (cfgMode : String) : Except ModeError EnhancerCoordinator :=
  let d := _normalize_mode cfgMode
  if d ∈ SUPPORTED_MODES then .ok ⟨d, []⟩
  else .error (.modeNotSupported cfgMode)

/-- `normalized = _normalize_mode(mode) or self.default_mode`. -/
def resolveMode (c : EnhancerCoordinator) (mode : String) : String :=
  let n := _normalize_mode mode
  if n = "" then c.default_mode else n

/-- `EnhancerCoordinator.get_service(mode)`: resolve the mode (empty means
the default), reject unsupported names with an error naming the original
`mode` value, return the cached instance when present, otherwise run the
factory and cache its result only on success.  The coordinator state after
the call is returned alongside the result. -/
def get_service (c : EnhancerCoordinator) (factory : String → Except ModeError Nat)
    (mode : String) : Except ModeError Nat × EnhancerCoordinator :=
  let normalized := resolveMode c mode
  if normalized ∈ SUPPORTED_MODES then
    match c.services.lookup normalized with
    | some s => (.ok s, c)
    | none =>
      match factory normalized with
      | .ok s => (.ok s, { c with services := (normalized, s) :: c.services })
      | .error e => (.error e, c)
  else (.error (.modeNotSupported mode), c)

/-! ## Response-stability polling (`gemini_client.py` lines 365-397)

One poll iteration reads the DOM: the presence of a Stop control, the
presence of a microphone control, and the current extracted candidate text.
The sequence of such observations is the polling environment; the overall
timeout bounds the number of iterations.  The model returns the index of the
iteration at which the loop concluded "response stabilized" (`none` for a
timeout, which the source merely logs before returning). -/

structure PollObs where
  stopPresent : Bool
  micPresent : Bool
  text : String
deriving DecidableEq, Repr

/-- `RESPONSE_STABLE_CHECKS = 3` -/
def RESPONSE_STABLE_CHECKS : Nat := 3

/-- The polling loop body of `_wait_for_response`: track `last_text` and
`stable_count` exactly as the source does (increment on an unchanged
non-empty text, else reset to zero and remember the new text), and return
once `(not stop_buttons and current_text) or mic_buttons` holds together
with `stable_count >= RESPONSE_STABLE_CHECKS`. -/
def waitGo (obs : Nat → PollObs) : Nat → Nat → String → Nat → Option Nat
  | 0, _, _, _ => none
  | fuel + 1, i, last_text, stable_count =>
    let current_text := (obs i).text
    let stable' :=
      if current_text = last_text ∧ current_text ≠ "" then stable_count + 1 else 0
    let last' :=
      if current_text = last_text ∧ current_text ≠ "" then last_text else current_text
    if (((obs i).stopPresent = false ∧ current_text ≠ "") ∨ (obs i).micPresent = true)
        ∧ RESPONSE_STABLE_CHECKS ≤ stable' then
      some i
    else waitGo obs fuel (i + 1) last' stable'

/-- `GeminiClient._wait_for_response`, with the poll observations and the
number of iterations permitted by the overall timeout made explicit. -/
def _wait_for_response (obs : Nat → PollObs) (maxPolls : Nat) : Option Nat :=
  waitGo obs maxPolls 0 "" 0

/-! ## `send_query` retry loop (`gemini_client.py` lines 136-167) -/

/-- The browser-facing operations `send_query` can perform, recorded as a
trace. -/
inductive Action where
  | initDriver
  | navigate
  | findInput
  | submitQuery
  | pollResponse
  | extractResponse
deriving DecidableEq, Repr

/-- Errors of one `send_query` attempt, plus the two loop-level failures:
`reinitFailed` stands for the exception re-raised when `init_driver` fails
inside the retry handler, and `assertionFailed` for the `assert` reached
when the loop body never ran (`max_retries = 0`). -/
inductive AutoError where
  | driverNotInitialized
  | pageLoadFailed
  | inputNotFound
  | submitFailed
  | extractFailed
  | reinitFailed
  | assertionFailed
deriving DecidableEq, Repr

/-- Outcome of the browser steps of one attempt: whether `_open_gemini`,
`_find_input_box` and `_submit_query` succeed, and the candidate text the
final `_extract_response_text` call reads from the DOM. -/
structure AttemptEnv where
  openOk : Bool
  findOk : Bool
  submitOk : Bool
  extractedText : String
deriving DecidableEq, Repr

/-- One iteration of the `send_query` `try` block: `_require_driver`, then
`_open_gemini`, `_find_input_box`, `_submit_query`, `_wait_for_response`
(which swallows its own poll exceptions and returns in any case), then
`_extract_response`.  Returns the attempt's outcome together with the
browser actions performed. -/
def runAttempt (driverLive : Bool) (env : AttemptEnv) :
    Except AutoError String × List Action :=
  if driverLive = false then (.error .driverNotInitialized, [])
  else if env.openOk = false then (.error .pageLoadFailed, [.navigate])
  else if env.findOk = false then (.error .inputNotFound, [.navigate, .findInput])
  else if env.submitOk = false then
    (.error .submitFailed, [.navigate, .findInput, .submitQuery])
  else
    match _extract_response env.extractedText with
    | .ok t =>
      (.ok t, [.navigate, .findInput, .submitQuery, .pollResponse, .extractResponse])
    | .error _ =>
      (.error .extractFailed,
        [.navigate, .findInput, .submitQuery, .pollResponse, .extractResponse])

/-- The `for attempt in range(max_retries)` loop of `send_query`: on a failed
attempt that is not the last, `close()` then `init_driver()` (recorded as
`Action.initDriver`); if that reinitialization itself raises, its error
propagates in place of the attempt's error; on the last attempt the error
propagates unchanged. -/
def sendQueryGo (env : Nat → AttemptEnv) (initOk : Nat → Bool) (max_retries : Nat) :
    Nat → Nat → Bool → List Action → Except AutoError String × List Action
  | 0, _, _, trace => (.error .assertionFailed, trace)
  | fuel + 1, attempt, driverLive, trace =>
    let r := runAttempt driverLive (env attempt)
    match r.1 with
    | .ok s => (.ok s, trace ++ r.2)
    | .error e =>
      if max_retries ≤ attempt + 1 then (.error e, trace ++ r.2)
      else if initOk attempt then
        sendQueryGo env initOk max_retries fuel (attempt + 1) true
          (trace ++ r.2 ++ [.initDriver])
      else (.error .reinitFailed, trace ++ r.2 ++ [.initDriver])

/-- `GeminiClient.send_query(text, max_retries)`: run the retry loop from
attempt 0 with the given initial driver state (`driverLive = false` models a
client on which `init_driver`/start was never called). -/
def send_query (driverLive : Bool) (env : Nat → AttemptEnv) (initOk : Nat → Bool)
    (max_retries : Nat) : Except AutoError String × List Action :=
  sendQueryGo env initOk max_retries max_retries 0 driverLive []

/-- The interactions claim C1 talks about: navigation, element lookup,
submission, polling and extraction (everything except driver
process management). -/
def Action.isBrowserInteraction : Action → Bool
  | .initDriver => false
  | _ => true

/-! ## Helper lemmas about path strings -/

lemma string_append_right_cancel {a b s : String} (h : a ++ s = b ++ s) : a = b := by
  apply String.ext
  apply List.append_cancel_right
  rw [← String.data_append, ← String.data_append, h]

lemma append_in_ne_append_out (a b : String) : a ++ "_in.txt" ≠ b ++ "_out.txt" := by
  intro h
  have hd : a.data ++ "_in.txt".data = b.data ++ "_out.txt".data := by
    rw [← String.data_append, ← String.data_append, h]
  have hr : "_in.txt".data.reverse ++ a.data.reverse
      = "_out.txt".data.reverse ++ b.data.reverse := by
    have h2 := congrArg List.reverse hd
    rwa [List.reverse_append, List.reverse_append] at h2
  have h7 : ("_in.txt".data.reverse ++ a.data.reverse).take 7
      = ("_out.txt".data.reverse ++ b.data.reverse).take 7 := by rw [hr]
  rw [@List.take_append_of_le_length Char "_in.txt".data.reverse a.data.reverse 7 (by decide),
    @List.take_append_of_le_length Char "_out.txt".data.reverse b.data.reverse 7 (by decide)]
      at h7
  exact absurd h7 (by decide)

/-! ## Lemmas about durable allocation -/

lemma tryCreatePair_some {timestamp : String} {fs : Finset String} {p : String × String}
    (h : (tryCreatePair timestamp fs).1 = some p) :
    p = (timestamp ++ "_in.txt", timestamp ++ "_out.txt")
    ∧ (timestamp ++ "_in.txt") ∉ fs ∧ (timestamp ++ "_out.txt") ∉ fs
    ∧ (tryCreatePair timestamp fs).2
      = insert (timestamp ++ "_out.txt") (insert (timestamp ++ "_in.txt") fs) := by
  by_cases h1 : (timestamp ++ "_in.txt") ∈ fs
  · simp [tryCreatePair, h1] at h
  · by_cases h2 : (timestamp ++ "_out.txt") ∈ insert (timestamp ++ "_in.txt") fs
    · simp [tryCreatePair, h1, h2] at h
    · have h2' : (timestamp ++ "_out.txt") ∉ fs := fun hm => h2 (Finset.mem_insert_of_mem hm)
      have hval : tryCreatePair timestamp fs
          = (some (timestamp ++ "_in.txt", timestamp ++ "_out.txt"),
             insert (timestamp ++ "_out.txt") (insert (timestamp ++ "_in.txt") fs)) := by
        simp [tryCreatePair, h1, h2]
      rw [hval] at h
      simp at h
      exact ⟨h.symm, h1, h2', by rw [hval]⟩

lemma tryCreatePair_none_snd {timestamp : String} {fs : Finset String}
    (h : (tryCreatePair timestamp fs).1 = none) :
    (tryCreatePair timestamp fs).2 = fs.erase (timestamp ++ "_in.txt") := by
  by_cases h1 : (timestamp ++ "_in.txt") ∈ fs
  · simp [tryCreatePair, h1]
  · by_cases h2 : (timestamp ++ "_out.txt") ∈ insert (timestamp ++ "_in.txt") fs
    · simp only [tryCreatePair, h1, h2, if_neg, if_false, if_true]
      rw [Finset.erase_insert h1, Finset.erase_eq_of_not_mem h1]
    · simp [tryCreatePair, h1, h2] at h

/-- On success, every attempt returns the pair built from that attempt's
timestamp (used for the token-association property; needs no freshness
assumption on the timestamps). -/
lemma createPairGo_ok_token (ts : Nat → String) :
    ∀ fuel k fs i o, (createPairGo ts fuel k fs).1 = .ok (i, o) →
      ∃ j, k ≤ j ∧ j < k + fuel ∧ i = ts j ++ "_in.txt" ∧ o = ts j ++ "_out.txt" := by
  intro fuel
  induction fuel with
  | zero => intro k fs i o h; simp [createPairGo] at h
  | succ n ih =>
    intro k fs i o h
    simp only [createPairGo] at h
    rcases htry : (tryCreatePair (ts k) fs).1 with _ | p
    · rw [htry] at h
      obtain ⟨j, hj1, hj2, hj3, hj4⟩ := ih (k + 1) _ i o h
      exact ⟨j, by omega, by omega, hj3, hj4⟩
    · rw [htry] at h
      simp at h
      obtain ⟨hp, -, -, -⟩ := tryCreatePair_some htry
      rw [h, Prod.mk.injEq] at hp
      exact ⟨k, le_refl k, by omega, hp.1, hp.2⟩

/-- Pairwise freshness of the per-attempt timestamps within the retry
budget. -/
def FreshTimestamps (ts : Nat → String) : Prop :=
  ∀ j, j < 5 → ∀ l, l < 5 → j ≠ l → ts j ≠ ts l

instance (ts : Nat → String) : Decidable (FreshTimestamps ts) := by
  unfold FreshTimestamps; infer_instance

/-- If the input-path candidate of every attempt in the window already
exists, the whole allocation fails with the exhaustion error. -/
lemma createPairGo_exhaust (ts : Nat → String) :
    ∀ fuel k fs, k + fuel ≤ 5 → FreshTimestamps ts →
      (∀ j, k ≤ j → j < k + fuel → (ts j ++ "_in.txt") ∈ fs) →
      (createPairGo ts fuel k fs).1 = .error () := by
  intro fuel
  induction fuel with
  | zero => intro k fs _ _ _; rfl
  | succ n ih =>
    intro k fs hle hdist hmem
    have hin : (ts k ++ "_in.txt") ∈ fs := hmem k (le_refl k) (by omega)
    have hnone : (tryCreatePair (ts k) fs).1 = none := by
      simp [tryCreatePair, hin]
    simp only [createPairGo, hnone]
    rw [tryCreatePair_none_snd hnone]
    apply ih (k + 1) _ (by omega) hdist
    intro j hj1 hj2
    have hne : ts j ++ "_in.txt" ≠ ts k ++ "_in.txt" := fun hEq =>
      hdist j (by omega) k (by omega) (by omega) (string_append_right_cancel hEq)
    exact Finset.mem_erase.mpr ⟨hne, hmem j (by omega) (by omega)⟩

/-- On success under fresh timestamps, the returned pair was exclusively
created: built from one attempt's timestamp, absent from the original
filesystem, and present afterwards.  `fs0` is the filesystem at the start of
the whole allocation; the iff hypothesis says the current filesystem agrees
with it on all candidate names still to be tried. -/
lemma createPairGo_ok_spec (ts : Nat → String) :
    ∀ (fuel k : Nat) (fs0 fs : Finset String), k + fuel ≤ 5 → FreshTimestamps ts →
      (∀ j, k ≤ j → j < 5 →
        ((ts j ++ "_in.txt") ∈ fs ↔ (ts j ++ "_in.txt") ∈ fs0)
        ∧ ((ts j ++ "_out.txt") ∈ fs ↔ (ts j ++ "_out.txt") ∈ fs0)) →
      ∀ i o, (createPairGo ts fuel k fs).1 = .ok (i, o) →
        ∃ j, k ≤ j ∧ j < 5 ∧ i = ts j ++ "_in.txt" ∧ o = ts j ++ "_out.txt"
          ∧ i ∉ fs0 ∧ o ∉ fs0
          ∧ i ∈ (createPairGo ts fuel k fs).2 ∧ o ∈ (createPairGo ts fuel k fs).2 := by
  intro fuel
  induction fuel with
  | zero => intro k fs0 fs _ _ _ i o h; simp [createPairGo] at h
  | succ n ih =>
    intro k fs0 fs hle hdist hiff i o h
    rcases htry : (tryCreatePair (ts k) fs).1 with _ | p
    · have hsnd := tryCreatePair_none_snd htry
      have hstep : createPairGo ts (n + 1) k fs
          = createPairGo ts n (k + 1) (fs.erase (ts k ++ "_in.txt")) := by
        simp only [createPairGo, htry, hsnd]
      rw [hstep] at h ⊢
      obtain ⟨j, hj1, hj2, hj3, hj4, hj5, hj6, hj7, hj8⟩ :=
        ih (k + 1) fs0 _ (by omega) hdist (by
          intro j hjk hj5'
          have hnein : ts j ++ "_in.txt" ≠ ts k ++ "_in.txt" := fun hEq =>
            hdist j (by omega) k (by omega) (by omega) (string_append_right_cancel hEq)
          have hneout : ts j ++ "_out.txt" ≠ ts k ++ "_in.txt" :=
            fun hEq => append_in_ne_append_out (ts k) (ts j) hEq.symm
          constructor
          · rw [Finset.mem_erase]
            constructor
            · intro hm
              exact (hiff j (by omega) hj5').1.mp hm.2
            · intro hm
              exact ⟨hnein, (hiff j (by omega) hj5').1.mpr hm⟩
          · rw [Finset.mem_erase]
            constructor
            · intro hm
              exact (hiff j (by omega) hj5').2.mp hm.2
            · intro hm
              exact ⟨hneout, (hiff j (by omega) hj5').2.mpr hm⟩) i o h
      exact ⟨j, by omega, hj2, hj3, hj4, hj5, hj6, hj7, hj8⟩
    · obtain ⟨hp, hnin, hnout, hsnd⟩ := tryCreatePair_some htry
      have hstep : createPairGo ts (n + 1) k fs
          = (.ok p, insert (ts k ++ "_out.txt") (insert (ts k ++ "_in.txt") fs)) := by
        simp only [createPairGo, htry, hsnd]
      rw [hstep] at h ⊢
      simp only [Except.ok.injEq] at h
      rw [h, Prod.mk.injEq] at hp
      have hk5 : k < 5 := by omega
      refine ⟨k, le_refl k, hk5, hp.1, hp.2, ?_, ?_, ?_, ?_⟩
      · rw [hp.1]
        exact fun hm => hnin ((hiff k (le_refl k) hk5).1.mpr hm)
      · rw [hp.2]
        exact fun hm => hnout ((hiff k (le_refl k) hk5).2.mpr hm)
      · rw [hp.1]
        exact Finset.mem_insert_of_mem (Finset.mem_insert_self _ _)
      · rw [hp.2]
        exact Finset.mem_insert_self _ _

/-! ## Claim C8 — separator cleanup on the concrete marked string -/

/-- C8: The shared text-cleanup pass applied to the separator-marked string
`"###start###\nhello\n###end###\n"` returns exactly `"hello\n"`. -/
theorem claim_C8_separator_cleanup :
    strip_separator_lines "###start###\nhello\n###end###\n" = "hello\n" := by decide

/-! ## Claim C9 — cleanup is idempotent and gated on the persist flag -/

/-- C9: Cleanup of a resource pair is idempotent and removes files only when
the pair is non-persistent: after cleanup of a transient pair both paths are
absent, cleanup of a persistent pair never removes anything, and cleaning up
an already-absent file is a no-op rather than an error (the model's unlink
suppresses the missing-file case, so a second invocation is the identity on
the first's result). -/
theorem claim_C9_cleanup_idempotent_and_selective (p : TempFilePair) (fs : Finset String) :
    maybe_cleanup p (maybe_cleanup p fs) = maybe_cleanup p fs
    ∧ (p.persist = true → maybe_cleanup p fs = fs)
    ∧ (p.persist = false →
        p.input_path ∉ maybe_cleanup p fs ∧ p.output_path ∉ maybe_cleanup p fs) := by
  rcases p with ⟨i, o, persist⟩
  cases persist
  · simp only [maybe_cleanup, unlinkSuppressMissing, if_neg, Bool.false_eq_true, if_false]
    refine ⟨?_, by simp, fun _ => ⟨?_, ?_⟩⟩
    · ext x
      simp only [Finset.mem_erase]
      tauto
    · simp only [Finset.mem_erase]
      tauto
    · exact Finset.not_mem_erase _ _
  · simp [maybe_cleanup]

/-- Witness for C9 at a concrete transient pair and filesystem. -/
theorem claim_C9_cleanup_witness :
    maybe_cleanup ⟨"a", "b", false⟩ (maybe_cleanup ⟨"a", "b", false⟩ {"a", "b", "c"})
      = maybe_cleanup ⟨"a", "b", false⟩ ({"a", "b", "c"} : Finset String)
    ∧ "a" ∉ maybe_cleanup ⟨"a", "b", false⟩ ({"a", "b", "c"} : Finset String)
    ∧ "b" ∉ maybe_cleanup ⟨"a", "b", false⟩ ({"a", "b", "c"} : Finset String) := by
  have h := claim_C9_cleanup_idempotent_and_selective ⟨"a", "b", false⟩
    ({"a", "b", "c"} : Finset String)
  exact ⟨h.1, (h.2.2 rfl).1, (h.2.2 rfl).2⟩

/-! ## Claim C4 — extraction length threshold

The claim says extraction fails exactly when the result is shorter than 10
characters and that a 10-character result is a success.  The source condition
is `len(text) > 10`, so a text of exactly 10 characters is rejected: the
boundary in the claim is off by one. -/

/-- Counterexample to C4 as stated: the 10-character extraction result
`"abcdefghij"` has at least 10 characters, yet `_extract_response` raises
instead of returning it. -/
theorem claim_C4_counterexample :
    ("abcdefghij" : String).length = 10
    ∧ _extract_response "abcdefghij" = .error () := by decide

/-- C4 (amended): the final extraction step raises a typed error if and only
if the extracted result has 10 or fewer characters; any result of at least
11 characters is returned as a success. -/
theorem claim_C4_amended_threshold (text : String) :
    (_extract_response text = .ok text ↔ 10 < text.length)
    ∧ (_extract_response text = .error () ↔ text.length ≤ 10) := by
  by_cases h : 10 < text.length
  · have hne : text ≠ "" := by
      intro he
      rw [he] at h
      exact absurd h (by decide)
    simp only [_extract_response, if_pos (And.intro hne h)]
    constructor
    · simp [h]
    · constructor
      · intro hcontra
        exact absurd hcontra (by simp)
      · omega
  · have hcond : ¬(text ≠ "" ∧ 10 < text.length) := fun hc => h hc.2
    simp only [_extract_response, if_neg hcond]
    constructor
    · constructor
      · intro hcontra
        exact absurd hcontra (by simp)
      · omega
    · simp
      omega

/-! ## Claim C3 — pairs sharing an allocation token

Durable pairs do share a timestamp token, but the transient allocation draws
two independent unique temp names, so a transient pair does not share a
token: the two paths differ in more than the `_in`/`_out` suffix. -/

/-- The two independent random components drawn by `tempfile` in one
transient allocation. -/
def transientRandWitness : Nat → String := fun n => if n = 0 then "abc123" else "xyz789"

/-- Counterexample to C3 as stated: a transient pair whose two
`NamedTemporaryFile` names have different random components shares no
allocation token. -/
theorem claim_C3_counterexample :
    ¬ sharesAllocationToken
        (create_transient_temp_file_pair transientRandWitness ∅).1.input_path
        (create_transient_temp_file_pair transientRandWitness ∅).1.output_path := by
  rintro ⟨t, h1, h2⟩
  have h1' : "promate-enhancer_abc123" ++ "_in.txt" = t ++ "_in.txt" := by
    rw [← h1]
    decide
  have ht : t = "promate-enhancer_abc123" := (string_append_right_cancel h1').symm
  rw [ht] at h2
  have h2' : (create_transient_temp_file_pair transientRandWitness ∅).1.output_path
      = "promate-enhancer_xyz789_out.txt" := by decide
  rw [h2'] at h2
  exact absurd h2 (by decide)

/-- C3 (amended): every resource pair returned by the durable allocation
(`maybe_create_temp_file_pair` with auto-cleanup disabled) shares a common
timestamp-derived allocation token, the two paths differing only in the
`_in`/`_out` suffix; transient pairs are built from two independently drawn
unique temp names and in general share no such token. -/
theorem claim_C3_amended_durable_pairs_share_token (ts : Nat → String)
    (fs : Finset String) (p : TempFilePair)
    (h : (maybe_create_temp_file_pair false ts fs).1 = .ok (some p)) :
    sharesAllocationToken p.input_path p.output_path := by
  rcases hc : _create_timestamped_pair ts fs with ⟨res, fs'⟩
  rcases res with e | pair
  · rw [maybe_create_temp_file_pair, if_neg (by simp), hc] at h
    simp at h
  · rcases pair with ⟨i, o⟩
    rw [maybe_create_temp_file_pair, if_neg (by simp), hc] at h
    simp only [Except.ok.injEq, Option.some.injEq] at h
    have hfst : (_create_timestamped_pair ts fs).1 = .ok (i, o) := by rw [hc]
    obtain ⟨j, -, -, hi, ho⟩ := createPairGo_ok_token ts 5 0 fs i o hfst
    rw [← h]
    exact ⟨ts j, hi, ho⟩

/-- The per-attempt timestamps for the C3/C6 witnesses. -/
def tsWitness : Nat → String :=
  fun n => if n = 0 then "t0" else if n = 1 then "t1" else if n = 2 then "t2"
    else if n = 3 then "t3" else "t4"

/-- Witness for the amended C3 at a concrete successful durable allocation. -/
theorem claim_C3_amended_witness :
    sharesAllocationToken "t0_in.txt" "t0_out.txt" := by
  have h := claim_C3_amended_durable_pairs_share_token tsWitness ∅
    ⟨"t0_in.txt", "t0_out.txt", true⟩ (by decide)
  exact h

/-! ## Claim C6 — durable allocation is exclusive with a bounded retry budget -/

/-- C6: durable allocation never reuses an existing file name — under fresh
per-attempt timestamps, a successful allocation returns a pair built from one
attempt's timestamp whose two paths did not previously exist and exist
afterwards (each file created with exclusive create-if-absent semantics) —
and when the input-path candidate of all 5 attempts already exists, every
attempt collides (discarding the partially created file) and the allocation
fails with the resource-exhaustion error. -/
theorem claim_C6_durable_allocation_exclusive :
    (∀ (ts : Nat → String) (fs : Finset String), FreshTimestamps ts →
      (∀ k, k < 5 → (ts k ++ "_in.txt") ∈ fs) →
      (_create_timestamped_pair ts fs).1 = .error ())
    ∧ (∀ (ts : Nat → String) (fs : Finset String) (i o : String), FreshTimestamps ts →
        (_create_timestamped_pair ts fs).1 = .ok (i, o) →
        ∃ k, k < 5 ∧ i = ts k ++ "_in.txt" ∧ o = ts k ++ "_out.txt"
          ∧ i ∉ fs ∧ o ∉ fs
          ∧ i ∈ (_create_timestamped_pair ts fs).2
          ∧ o ∈ (_create_timestamped_pair ts fs).2) := by
  constructor
  · intro ts fs hdist hmem
    exact createPairGo_exhaust ts 5 0 fs (by omega) hdist
      (fun j _ hj => hmem j (by omega))
  · intro ts fs i o hdist h
    obtain ⟨j, -, hj2, hj3, hj4, hj5, hj6, hj7, hj8⟩ :=
      createPairGo_ok_spec ts 5 0 fs fs (by omega) hdist
        (fun j _ _ => ⟨Iff.rfl, Iff.rfl⟩) i o h
    exact ⟨j, hj2, hj3, hj4, hj5, hj6, hj7, hj8⟩

/-- Witness for C6: the exhaustion half on a filesystem pre-seeded with all
five input candidates, and the exclusivity half on an empty filesystem. -/
theorem claim_C6_durable_allocation_witness :
    (_create_timestamped_pair tsWitness
      {"t0_in.txt", "t1_in.txt", "t2_in.txt", "t3_in.txt", "t4_in.txt"}).1 = .error ()
    ∧ ∃ k, k < 5 ∧ "t0_in.txt" = tsWitness k ++ "_in.txt"
        ∧ "t0_out.txt" = tsWitness k ++ "_out.txt"
        ∧ "t0_in.txt" ∉ (∅ : Finset String) ∧ "t0_out.txt" ∉ (∅ : Finset String)
        ∧ "t0_in.txt" ∈ (_create_timestamped_pair tsWitness ∅).2
        ∧ "t0_out.txt" ∈ (_create_timestamped_pair tsWitness ∅).2 := by
  constructor
  · exact claim_C6_durable_allocation_exclusive.1 tsWitness
      {"t0_in.txt", "t1_in.txt", "t2_in.txt", "t3_in.txt", "t4_in.txt"}
      (by decide) (by decide)
  · exact claim_C6_durable_allocation_exclusive.2 tsWitness ∅ "t0_in.txt" "t0_out.txt"
      (by decide) (by decide)

/-! ## Claim C7 — backend lookup: normalization, caching, typed rejection -/

/-- C7: backend lookup normalizes the requested name (an empty normalized
name resolves to the configured default); a successful lookup is cached, so
any later request resolving to the same normalized name — regardless of case
or surrounding whitespace, and regardless of the factory now in force —
returns the same instance and leaves the state unchanged; a name resolving
outside the supported set always fails with the typed mode-not-supported
error naming the rejected value; and a failed construction propagates the
factory's error without caching anything, so the state seen by a subsequent
call is unchanged and construction is re-attempted. -/
theorem claim_C7_get_service_normalize_cache_reject :
    (∀ (c : EnhancerCoordinator) (mode : String),
      _normalize_mode mode = "" → resolveMode c mode = c.default_mode)
    ∧ (∀ (c : EnhancerCoordinator) (f f' : String → Except ModeError Nat)
        (mode mode' : String) (s : Nat) (c' : EnhancerCoordinator),
        get_service c f mode = (.ok s, c') →
        resolveMode c' mode' = resolveMode c mode →
        get_service c' f' mode' = (.ok s, c'))
    ∧ (∀ (c : EnhancerCoordinator) (f : String → Except ModeError Nat) (mode : String),
        resolveMode c mode ∉ SUPPORTED_MODES →
        get_service c f mode = (.error (.modeNotSupported mode), c))
    ∧ (∀ (c : EnhancerCoordinator) (f : String → Except ModeError Nat)
        (mode : String) (e : ModeError),
        resolveMode c mode ∈ SUPPORTED_MODES →
        c.services.lookup (resolveMode c mode) = none →
        f (resolveMode c mode) = .error e →
        get_service c f mode = (.error e, c)) := by
  refine ⟨?_, ?_, ?_, ?_⟩
  · intro c mode h
    simp [resolveMode, h]
  · intro c f f' mode mode' s c' h1 hr
    by_cases hm : resolveMode c mode ∈ SUPPORTED_MODES
    · rcases hl : c.services.lookup (resolveMode c mode) with _ | v
      · rcases hf : f (resolveMode c mode) with e | v2
        · rw [get_service] at h1
          simp only [hm, if_pos, hl, hf] at h1
          exact absurd (congrArg Prod.fst h1) (by simp)
        · rw [get_service] at h1
          simp only [hm, if_pos, hl, hf] at h1
          have hs : v2 = s := by
            have := congrArg Prod.fst h1
            simpa using this
          have hc' : c' = { c with services := (resolveMode c mode, v2) :: c.services } :=
            (congrArg Prod.snd h1).symm
          rw [get_service, hr, if_pos hm, hc', hs]
          simp [List.lookup]
      · rw [get_service] at h1
        simp only [hm, if_pos, hl] at h1
        have hs : v = s := by
          have := congrArg Prod.fst h1
          simpa using this
        have hc' : c' = c := (congrArg Prod.snd h1).symm
        rw [get_service, hr, if_pos hm, hc', hl, hs]
    · rw [get_service, if_neg hm] at h1
      exact absurd (congrArg Prod.fst h1) (by simp)
  · intro c f mode h
    rw [get_service, if_neg h]
  · intro c f mode e hm hl hf
    rw [get_service, if_pos hm, hl, hf]

/-- The coordinator state after a first successful `command` lookup, used by
the C7 witness. -/
def coordWitness : EnhancerCoordinator := ⟨"selenium", []⟩

/-- Witness for C7: empty-name default resolution; a cached repeat lookup
under different casing, whitespace and factory; typed rejection of an
unsupported name; and a non-cached factory failure. -/
theorem claim_C7_get_service_witness :
    resolveMode coordWitness "   " = "selenium"
    ∧ get_service ⟨"selenium", [("command", 7)]⟩ (fun _ => .ok 99) "  COMMAND  "
        = (.ok 7, ⟨"selenium", [("command", 7)]⟩)
    ∧ get_service coordWitness (fun _ => .ok 7) "gpt"
        = (.error (.modeNotSupported "gpt"), coordWitness)
    ∧ get_service coordWitness (fun _ => .error .factoryFailed) "command"
        = (.error .factoryFailed, coordWitness) := by
  refine ⟨?_, ?_, ?_, ?_⟩
  · exact claim_C7_get_service_normalize_cache_reject.1 coordWitness "   " (by decide)
  · exact claim_C7_get_service_normalize_cache_reject.2.1
      ⟨"selenium", []⟩ (fun _ => .ok 7) (fun _ => .ok 99) "Command" "  COMMAND  " 7
      ⟨"selenium", [("command", 7)]⟩ (by decide) (by decide)
  · exact claim_C7_get_service_normalize_cache_reject.2.2.1 coordWitness
      (fun _ => .ok 7) "gpt" (by decide)
  · exact claim_C7_get_service_normalize_cache_reject.2.2.2 coordWitness
      (fun _ => .error .factoryFailed) "command" .factoryFailed
      (by decide) (by decide) (by decide)

/-! ## Lemmas about the `send_query` retry loop -/

/-- The retry loop only ever appends to the trace accumulator. -/
lemma sendQueryGo_trace_append (env : Nat → AttemptEnv) (initOk : Nat → Bool)
    (max_retries : Nat) :
    ∀ fuel attempt driverLive trace, ∃ rest,
      (sendQueryGo env initOk max_retries fuel attempt driverLive trace).2
        = trace ++ rest := by
  intro fuel
  induction fuel with
  | zero => exact fun _ _ trace => ⟨[], (List.append_nil trace).symm⟩
  | succ n ih =>
    intro attempt driverLive trace
    simp only [sendQueryGo]
    split
    · exact ⟨(runAttempt driverLive (env attempt)).2, rfl⟩
    · split
      · exact ⟨(runAttempt driverLive (env attempt)).2, rfl⟩
      · split
        · obtain ⟨rest, hrest⟩ := ih (attempt + 1) true
            (trace ++ (runAttempt driverLive (env attempt)).2 ++ [Action.initDriver])
          exact ⟨(runAttempt driverLive (env attempt)).2 ++ [Action.initDriver] ++ rest,
            by rw [hrest]; simp⟩
        · exact ⟨(runAttempt driverLive (env attempt)).2 ++ [Action.initDriver], by simp⟩

/-! ## Claim C1 — `send_query` on an uninitialized session

The first attempt of `send_query` on a session with no live driver does fail
before any browser interaction, but the retry handler then tears down and
*reinitializes* the session; with a retry budget of at least 2 and a
succeeding `init_driver`, the second attempt navigates, submits and can
succeed, so the call neither fails nor avoids browser interaction.  The
claim holds only for a budget of at most 1 (where the driver-not-initialized
error surfaces immediately). -/

/-- A fully healthy automation environment for the C1 counterexample. -/
def c1Env : Nat → AttemptEnv := fun _ => ⟨true, true, true, "this is a long response"⟩

/-- Counterexample to C1 as stated: with the default budget of 2 attempts
and a reinitialization that succeeds, `send_query` on an uninitialized
session returns a successful answer after performing navigation (and the
other browser interactions), instead of failing without any interaction. -/
theorem claim_C1_counterexample :
    (send_query false c1Env (fun _ => true) 2).1 = .ok "this is a long response"
    ∧ Action.navigate ∈ (send_query false c1Env (fun _ => true) 2).2 := by decide

/-- C1 (amended): on a session with no live driver handle, the first attempt
always fails with the driver-not-initialized error before any browser
interaction; when `max_attempts ≤ 1` the call therefore fails with an error
and an empty interaction trace; for larger budgets no browser interaction
ever precedes the session reinitialization (the trace is empty or starts
with the reinitialization step). -/
theorem claim_C1_amended_uninitialized (env : Nat → AttemptEnv) (initOk : Nat → Bool)
    (max_retries : Nat) :
    (max_retries ≤ 1 →
      (∃ e, (send_query false env initOk max_retries).1 = .error e)
      ∧ (send_query false env initOk max_retries).2 = [])
    ∧ ((send_query false env initOk max_retries).2 = []
        ∨ ∃ rest, (send_query false env initOk max_retries).2
            = Action.initDriver :: rest) := by
  have hrun : runAttempt false (env 0) = (.error .driverNotInitialized, []) := by
    simp [runAttempt]
  rcases max_retries with _ | m
  · exact ⟨fun _ => ⟨⟨.assertionFailed, rfl⟩, rfl⟩, Or.inl rfl⟩
  · have hstep : send_query false env initOk (m + 1)
        = (if m + 1 ≤ 0 + 1 then (.error .driverNotInitialized, [] ++ [])
           else if initOk 0 = true then
             sendQueryGo env initOk (m + 1) m 1 true ([] ++ [] ++ [Action.initDriver])
           else (.error .reinitFailed, [] ++ [] ++ [Action.initDriver])) := by
      rw [send_query]
      show sendQueryGo env initOk (m + 1) (m + 1) 0 false [] = _
      simp only [sendQueryGo, hrun]
    rcases Nat.eq_zero_or_pos m with hm | hm
    · subst hm
      rw [hstep, if_pos (by omega)]
      exact ⟨fun _ => ⟨⟨.driverNotInitialized, rfl⟩, rfl⟩, Or.inl rfl⟩
    · rw [hstep, if_neg (by omega)]
      constructor
      · intro hle
        omega
      · right
        by_cases hinit : initOk 0
        · rw [if_pos hinit]
          obtain ⟨rest, hrest⟩ :=
            sendQueryGo_trace_append env initOk (m + 1) m 1 true
              ([] ++ [] ++ [Action.initDriver])
          exact ⟨rest, by rw [hrest]; simp⟩
        · rw [if_neg hinit]
          exact ⟨[], rfl⟩

/-- Witness for the amended C1 at budget 1: the call errors with an empty
trace (and the general trace-shape disjunct holds). -/
theorem claim_C1_amended_witness :
    ((∃ e, (send_query false c1Env (fun _ => true) 1).1 = .error e)
      ∧ (send_query false c1Env (fun _ => true) 1).2 = [])
    ∧ ((send_query false c1Env (fun _ => true) 1).2 = []
        ∨ ∃ rest, (send_query false c1Env (fun _ => true) 1).2
            = Action.initDriver :: rest) := by
  have h := claim_C1_amended_uninitialized c1Env (fun _ => true) 1
  exact ⟨h.1 (by omega), h.2⟩

/-! ## Claim C2 — semantic extraction errors and the retry loop

The source's retry loop catches *every* exception of an attempt, including
the `RuntimeError` raised by `_extract_response` for an empty or too-short
answer: a semantic extraction failure on a non-final attempt is retried by
full session recreation exactly like a transient error, and it is surfaced
only when it occurs on the final attempt. -/

/-- Attempt environments for the C2 counterexample: attempt 0 extracts a
too-short answer, later attempts a long one. -/
def c2Env : Nat → AttemptEnv := fun attempt =>
  if attempt = 0 then ⟨true, true, true, "short"⟩
  else ⟨true, true, true, "a sufficiently long answer"⟩

/-- Counterexample to C2 as stated: attempt 0 fails with the semantic
extraction error, yet `send_query` retries (a second extraction occurs) and
returns the second attempt's answer instead of surfacing the error
immediately. -/
theorem claim_C2_counterexample :
    (runAttempt true (c2Env 0)).1 = .error .extractFailed
    ∧ (send_query true c2Env (fun _ => true) 2).1 = .ok "a sufficiently long answer"
    ∧ (send_query true c2Env (fun _ => true) 2).2.count .extractResponse = 2 := by decide

/-- A short extracted text makes `_extract_response` fail. -/
lemma _extract_response_error_of_short (text : String) (h : text.length ≤ 10) :
    _extract_response text = .error () := by
  rw [_extract_response, if_neg]
  rintro ⟨-, h10⟩
  omega

/-- An attempt whose browser steps succeed but whose extracted text is too
short fails with the semantic extraction error after the full interaction
sequence. -/
lemma runAttempt_extractFailed (e : AttemptEnv) (h1 : e.openOk = true)
    (h2 : e.findOk = true) (h3 : e.submitOk = true)
    (h4 : e.extractedText.length ≤ 10) :
    runAttempt true e
      = (.error .extractFailed,
         [.navigate, .findInput, .submitQuery, .pollResponse, .extractResponse]) := by
  rw [runAttempt]
  simp [h1, h2, h3, _extract_response_error_of_short _ h4]

/-- Unfolding of the retry loop when every attempt fails semantically: the
extraction error is re-raised on the final attempt and one extraction was
performed per attempt. -/
lemma sendQueryGo_all_short (env : Nat → AttemptEnv) (initOk : Nat → Bool)
    (max_retries : Nat) (hinit : ∀ i, initOk i = true)
    (henv : ∀ i, i < max_retries → (env i).openOk = true ∧ (env i).findOk = true
      ∧ (env i).submitOk = true ∧ (env i).extractedText.length ≤ 10) :
    ∀ fuel attempt trace, attempt + fuel = max_retries → 1 ≤ fuel →
      (sendQueryGo env initOk max_retries fuel attempt true trace).1
        = .error .extractFailed
      ∧ (sendQueryGo env initOk max_retries fuel attempt true trace).2.count
          .extractResponse = trace.count .extractResponse + fuel := by
  intro fuel
  induction fuel with
  | zero => intro attempt trace _ h1; omega
  | succ n ih =>
    intro attempt trace hsum _
    have hatt : attempt < max_retries := by omega
    obtain ⟨e1, e2, e3, e4⟩ := henv attempt hatt
    have hrun := runAttempt_extractFailed (env attempt) e1 e2 e3 e4
    rcases Nat.eq_zero_or_pos n with hn | hn
    · subst hn
      simp only [sendQueryGo, hrun]
      rw [if_pos (by omega)]
      refine ⟨rfl, ?_⟩
      rw [List.count_append]
      simp [List.count_cons]
    · simp only [sendQueryGo, hrun]
      rw [if_neg (by omega), if_pos (hinit attempt)]
      obtain ⟨ih1, ih2⟩ := ih (attempt + 1)
        (trace ++ [.navigate, .findInput, .submitQuery, .pollResponse, .extractResponse]
          ++ [Action.initDriver]) (by omega) (by omega)
      refine ⟨ih1, ?_⟩
      rw [ih2, List.count_append, List.count_append]
      simp [List.count_cons]
      omega

/-- C2 (amended): an automation semantic error (empty or too-short extracted
response) is *not* treated specially by the retry loop: like a transient
error it triggers session recreation and a retry on every non-final attempt,
and it is surfaced to the caller only once it occurs on the final attempt —
when every attempt's extraction is too short, `send_query` performs one
extraction per attempt (retrying the semantic failure) and ends with the
extraction error. -/
theorem claim_C2_amended_semantic_errors_retried (env : Nat → AttemptEnv)
    (initOk : Nat → Bool) (max_retries : Nat) (hmr : 1 ≤ max_retries)
    (hinit : ∀ i, initOk i = true)
    (henv : ∀ i, i < max_retries → (env i).openOk = true ∧ (env i).findOk = true
      ∧ (env i).submitOk = true ∧ (env i).extractedText.length ≤ 10) :
    (send_query true env initOk max_retries).1 = .error .extractFailed
    ∧ (send_query true env initOk max_retries).2.count .extractResponse
        = max_retries := by
  obtain ⟨h1, h2⟩ := sendQueryGo_all_short env initOk max_retries hinit henv
    max_retries 0 [] (by omega) hmr
  exact ⟨h1, by rw [send_query] at *; rw [h2]; simp⟩

/-- All-short attempt environments for the C2 witness. -/
def c2ShortEnv : Nat → AttemptEnv := fun _ => ⟨true, true, true, "short"⟩

/-- Witness for the amended C2 at budget 2: both attempts extract, and the
semantic error surfaces at the end. -/
theorem claim_C2_amended_witness :
    (send_query true c2ShortEnv (fun _ => true) 2).1 = .error .extractFailed
    ∧ (send_query true c2ShortEnv (fun _ => true) 2).2.count .extractResponse = 2 := by
  exact claim_C2_amended_semantic_errors_retried c2ShortEnv (fun _ => true) 2
    (by omega) (fun _ => rfl) (by decide)

/-! ## Claim C10 — a failing reinitialization preempts further attempts -/

/-- C10: when an attempt other than the last fails and the subsequent
session reinitialization itself raises, the reinitialization error
propagates to the caller in place of the original attempt's error, and no
further attempts are made: the whole trace is the first attempt's actions
followed by the failed reinitialization. -/
theorem claim_C10_reinit_failure_propagates (env : Nat → AttemptEnv)
    (initOk : Nat → Bool) (max_retries : Nat) (hmr : 2 ≤ max_retries)
    (hfail : ∃ e, (runAttempt true (env 0)).1 = .error e)
    (hinit : initOk 0 = false) :
    send_query true env initOk max_retries
      = (.error .reinitFailed, (runAttempt true (env 0)).2 ++ [.initDriver]) := by
  obtain ⟨e, he⟩ := hfail
  rcases max_retries with _ | m
  · omega
  · rw [send_query]
    simp only [sendQueryGo, he]
    rw [if_neg (by omega), if_neg (by simp [hinit])]
    simp

/-- Witness for C10: attempt 0 fails to load the page, reinitialization
fails, and the reinitialization error is what surfaces after exactly one
attempt. -/
theorem claim_C10_reinit_failure_witness :
    send_query true (fun _ => ⟨false, true, true, "irrelevant"⟩) (fun _ => false) 2
      = (.error .reinitFailed,
         (runAttempt true ((fun _ => (⟨false, true, true, "irrelevant"⟩ : AttemptEnv)) 0)).2
           ++ [.initDriver]) := by
  exact claim_C10_reinit_failure_propagates
    (fun _ => ⟨false, true, true, "irrelevant"⟩) (fun _ => false) 2 (by omega)
    ⟨.pageLoadFailed, by decide⟩ rfl

/-! ## Lemmas about the response-stability polling loop -/

/-- Loop invariant of `waitGo` at the start of iteration `i`: `last_text` is
the previous iteration's extracted text; a positive `stable_count` means the
last `stable_count + 1` observations all showed the same non-empty text; and
the counter can only have been incremented since iteration 1. -/
def waitInv (obs : Nat → PollObs) (i : Nat) (last : String) (stable : Nat) : Prop :=
  (i = 0 → last = "" ∧ stable = 0)
  ∧ (0 < i → last = (obs (i - 1)).text)
  ∧ (0 < stable → last ≠ "" ∧ ∀ k, k ≤ stable → (obs (i - 1 - k)).text = last)
  ∧ (stable = 0 ∨ stable + 1 ≤ i)

lemma waitInv_init (obs : Nat → PollObs) : waitInv obs 0 "" 0 :=
  ⟨fun _ => ⟨rfl, rfl⟩, fun h => absurd h (by omega), fun h => absurd h (by omega),
    Or.inl rfl⟩

/-- The invariant is preserved by one iteration's `stable_count`/`last_text`
update. -/
lemma waitInv_step (obs : Nat → PollObs) (i : Nat) (last : String) (stable : Nat)
    (h : waitInv obs i last stable) :
    waitInv obs (i + 1)
      (if (obs i).text = last ∧ (obs i).text ≠ "" then last else (obs i).text)
      (if (obs i).text = last ∧ (obs i).text ≠ "" then stable + 1 else 0) := by
  by_cases hc : (obs i).text = last ∧ (obs i).text ≠ ""
  · obtain ⟨hceq, hcne⟩ := hc
    rw [if_pos ⟨hceq, hcne⟩, if_pos ⟨hceq, hcne⟩]
    have hipos : 0 < i := by
      rcases Nat.eq_zero_or_pos i with h0 | hp
      · exfalso
        obtain ⟨hl, -⟩ := h.1 h0
        rw [hl] at hceq
        exact hcne hceq
      · exact hp
    refine ⟨fun h0 => absurd h0 (by omega), fun _ => ?_, fun _ => ⟨?_, ?_⟩, ?_⟩
    · simpa using hceq.symm
    · rw [← hceq] at *
      exact fun he => hcne he
    · intro k hk
      rcases k with _ | m
      · simpa using hceq
      · have hm : m ≤ stable := by omega
        have hidx : i + 1 - 1 - (m + 1) = i - 1 - m := by omega
        rw [hidx]
        rcases Nat.eq_zero_or_pos stable with hs | hs
        · subst hs
          have hm0 : m = 0 := by omega
          subst hm0
          simpa using (h.2.1 hipos).symm
        · exact (h.2.2.1 hs).2 m hm
    · right
      rcases h.2.2.2 with hs | hs
      · subst hs
        omega
      · omega
  · rw [if_neg hc, if_neg hc]
    exact ⟨fun h0 => absurd h0 (by omega), fun _ => by simp,
      fun h0 => absurd h0 (by omega), Or.inl rfl⟩

/-- Soundness of the stability check: whenever the polling loop reports
success at iteration `r`, the loop had seen at least three consecutive
unchanged polls of the same non-empty text (four equal observations ending
at `r`), and the in-progress marker condition held at `r`. -/
lemma waitGo_some_spec (obs : Nat → PollObs) :
    ∀ fuel i last stable r, waitInv obs i last stable →
      waitGo obs fuel i last stable = some r →
      3 ≤ r ∧ r < i + fuel ∧ (obs r).text ≠ ""
      ∧ (obs (r - 1)).text = (obs r).text
      ∧ (obs (r - 2)).text = (obs r).text
      ∧ (obs (r - 3)).text = (obs r).text
      ∧ ((obs r).stopPresent = false ∨ (obs r).micPresent = true) := by
  intro fuel
  induction fuel with
  | zero => intro i last stable r _ h; simp [waitGo] at h
  | succ n ih =>
    intro i last stable r hinv h
    simp only [waitGo] at h
    by_cases hc : (obs i).text = last ∧ (obs i).text ≠ ""
    · rw [if_pos hc, if_pos hc] at h
      have hnext := waitInv_step obs i last stable hinv
      rw [if_pos hc, if_pos hc] at hnext
      by_cases hcond : (((obs i).stopPresent = false ∧ (obs i).text ≠ "")
          ∨ (obs i).micPresent = true) ∧ RESPONSE_STABLE_CHECKS ≤ stable + 1
      · rw [if_pos hcond] at h
        have hri : i = r := by simpa using h
        subst hri
        have hstab : 2 ≤ stable := by
          have := hcond.2
          rw [RESPONSE_STABLE_CHECKS] at this
          omega
        have hall := (hnext.2.2.1 (by omega)).2
        have hlast : last ≠ "" := (hnext.2.2.1 (by omega)).1
        have hibound : stable + 1 + 1 ≤ i + 1 := by
          rcases hnext.2.2.2 with h0 | hb
          · omega
          · exact hb
        have h0 : (obs (i + 1 - 1 - 0)).text = last := hall 0 (by omega)
        have h1 : (obs (i + 1 - 1 - 1)).text = last := hall 1 (by omega)
        have h2 : (obs (i + 1 - 1 - 2)).text = last := hall 2 (by omega)
        have h3 : (obs (i + 1 - 1 - 3)).text = last := hall 3 (by omega)
        simp only [Nat.add_sub_cancel] at h0 h1 h2 h3
        have hi0 : (obs i).text = last := by simpa using h0
        refine ⟨by omega, by omega, hc.2, ?_, ?_, ?_, ?_⟩
        · rw [hi0]
          simpa using h1
        · rw [hi0]
          simpa using h2
        · rw [hi0]
          simpa using h3
        · rcases hcond.1 with hstop | hmic
          · exact Or.inl hstop.1
          · exact Or.inr hmic
      · rw [if_neg hcond] at h
        obtain ⟨g1, g2, g3, g4, g5, g6, g7⟩ := ih (i + 1) last (stable + 1) r hnext h
        exact ⟨g1, by omega, g3, g4, g5, g6, g7⟩
    · rw [if_neg hc, if_neg hc] at h
      have hnext := waitInv_step obs i last stable hinv
      rw [if_neg hc, if_neg hc] at hnext
      by_cases hcond : (((obs i).stopPresent = false ∧ (obs i).text ≠ "")
          ∨ (obs i).micPresent = true) ∧ RESPONSE_STABLE_CHECKS ≤ 0
      · exfalso
        have := hcond.2
        rw [RESPONSE_STABLE_CHECKS] at this
        omega
      · rw [if_neg hcond] at h
        obtain ⟨g1, g2, g3, g4, g5, g6, g7⟩ := ih (i + 1) (obs i).text 0 r hnext h
        exact ⟨g1, by omega, g3, g4, g5, g6, g7⟩

/-- One unfolding of an iteration of the polling loop. -/
lemma waitGo_succ (obs : Nat → PollObs) (fuel i : Nat) (last : String) (stable : Nat) :
    waitGo obs (fuel + 1) i last stable
      = (if (((obs i).stopPresent = false ∧ (obs i).text ≠ "")
              ∨ (obs i).micPresent = true)
            ∧ RESPONSE_STABLE_CHECKS
              ≤ (if (obs i).text = last ∧ (obs i).text ≠ "" then stable + 1 else 0) then
          some i
        else
          waitGo obs fuel (i + 1)
            (if (obs i).text = last ∧ (obs i).text ≠ "" then last else (obs i).text)
            (if (obs i).text = last ∧ (obs i).text ≠ "" then stable + 1 else 0)) := rfl

/-- An iteration that re-observes the current non-empty `last_text` either
succeeds at once or continues with the stability counter incremented. -/
lemma waitGo_step_stable (obs : Nat → PollObs) (fuel i : Nat) (last : String)
    (stable : Nat) (hcur : (obs i).text = last) (hne : (obs i).text ≠ "") :
    waitGo obs (fuel + 1) i last stable = some i
    ∨ waitGo obs (fuel + 1) i last stable = waitGo obs fuel (i + 1) last (stable + 1) := by
  have hc : (obs i).text = last ∧ (obs i).text ≠ "" := ⟨hcur, hne⟩
  rw [waitGo_succ, if_pos hc, if_pos hc]
  by_cases hcond : (((obs i).stopPresent = false ∧ (obs i).text ≠ "")
      ∨ (obs i).micPresent = true) ∧ RESPONSE_STABLE_CHECKS ≤ stable + 1
  · rw [if_pos hcond]
    exact Or.inl rfl
  · rw [if_neg hcond]
    exact Or.inr rfl

/-- An iteration that re-observes the current non-empty `last_text` with the
counter already at 2 and the marker condition satisfied reports success. -/
lemma waitGo_step_returns (obs : Nat → PollObs) (fuel i : Nat) (last : String)
    (stable : Nat) (hcur : (obs i).text = last) (hne : (obs i).text ≠ "")
    (hmark : (obs i).stopPresent = false ∨ (obs i).micPresent = true)
    (hstab : 2 ≤ stable) :
    waitGo obs (fuel + 1) i last stable = some i := by
  have hc : (obs i).text = last ∧ (obs i).text ≠ "" := ⟨hcur, hne⟩
  rw [waitGo_succ, if_pos hc, if_pos hc, if_pos ?_]
  constructor
  · rcases hmark with hstop | hmic
    · exact Or.inl ⟨hstop, hne⟩
    · exact Or.inr hmic
  · rw [RESPONSE_STABLE_CHECKS]
    omega

/-- Running the loop across `d` iterations: either it reports success
strictly before index `i + d`, or it reaches index `i + d` with the
invariant holding and `d` units of fuel spent. -/
lemma waitGo_split (obs : Nat → PollObs) :
    ∀ (d fuel i : Nat) (last : String) (stable : Nat), waitInv obs i last stable →
      i + d < i + fuel →
      (∃ r, r < i + d ∧ waitGo obs fuel i last stable = some r)
      ∨ ∃ (fuel' : Nat) (last' : String) (stable' : Nat), fuel = fuel' + d
          ∧ waitInv obs (i + d) last' stable'
          ∧ waitGo obs fuel i last stable = waitGo obs fuel' (i + d) last' stable' := by
  intro d
  induction d with
  | zero =>
    intro fuel i last stable hinv hlt
    right
    exact ⟨fuel, last, stable, by omega, by simpa using hinv, by simp⟩
  | succ m ihd =>
    intro fuel i last stable hinv hlt
    rcases fuel with _ | f
    · exact absurd hlt (by omega)
    have hnext := waitInv_step obs i last stable hinv
    by_cases hc : (obs i).text = last ∧ (obs i).text ≠ ""
    · rw [if_pos hc, if_pos hc] at hnext
      have hstep : waitGo obs (f + 1) i last stable
          = (if (((obs i).stopPresent = false ∧ (obs i).text ≠ "")
                  ∨ (obs i).micPresent = true)
                ∧ RESPONSE_STABLE_CHECKS ≤ stable + 1 then some i
             else waitGo obs f (i + 1) last (stable + 1)) := by
        rw [waitGo_succ, if_pos hc, if_pos hc]
      by_cases hcond : (((obs i).stopPresent = false ∧ (obs i).text ≠ "")
          ∨ (obs i).micPresent = true) ∧ RESPONSE_STABLE_CHECKS ≤ stable + 1
      · left
        exact ⟨i, by omega, by rw [hstep, if_pos hcond]⟩
      · have hstep' : waitGo obs (f + 1) i last stable
            = waitGo obs f (i + 1) last (stable + 1) := by
          rw [hstep, if_neg hcond]
        rcases ihd f (i + 1) last (stable + 1) hnext (by omega)
          with ⟨r, hr, heq⟩ | ⟨f', l', s', hf, hinv', heq⟩
        · left
          exact ⟨r, by omega, hstep'.trans heq⟩
        · right
          rw [(show i + 1 + m = i + (m + 1) by omega)] at hinv' heq
          exact ⟨f', l', s', by omega, hinv', hstep'.trans heq⟩
    · rw [if_neg hc, if_neg hc] at hnext
      have hstep' : waitGo obs (f + 1) i last stable
          = waitGo obs f (i + 1) (obs i).text 0 := by
        rw [waitGo_succ, if_neg hc, if_neg hc, if_neg]
        intro hx
        rw [RESPONSE_STABLE_CHECKS] at hx
        omega
      rcases ihd f (i + 1) (obs i).text 0 hnext (by omega)
        with ⟨r, hr, heq⟩ | ⟨f', l', s', hf, hinv', heq⟩
      · left
        exact ⟨r, by omega, hstep'.trans heq⟩
      · right
        rw [(show i + 1 + m = i + (m + 1) by omega)] at hinv' heq
        exact ⟨f', l', s', by omega, hinv', hstep'.trans heq⟩

/-- Completeness of the stability check: once four consecutive polls show
the same non-empty text and the marker condition holds at the fourth, the
loop has reported success at or before that poll. -/
lemma waitGo_window_success (obs : Nat → PollObs) (N j : Nat)
    (hwin : ∀ k, k ≤ 3 → (obs (j + k)).text = (obs j).text)
    (hne : (obs j).text ≠ "")
    (hmark : (obs (j + 3)).stopPresent = false ∨ (obs (j + 3)).micPresent = true)
    (hN : j + 3 < N) :
    ∃ r, r ≤ j + 3 ∧ _wait_for_response obs N = some r := by
  rw [_wait_for_response]
  rcases waitGo_split obs (j + 1) N 0 "" 0 (waitInv_init obs) (by omega)
    with ⟨r, hr, heq⟩ | ⟨f', l', s', hf, hinv, heq⟩
  · exact ⟨r, by omega, heq⟩
  · rw [Nat.zero_add] at hinv heq
    have hl : l' = (obs j).text := by
      have h1 := hinv.2.1 (by omega)
      simpa using h1
    obtain ⟨f3, rfl⟩ : ∃ f3, f' = f3 + 3 := ⟨f' - 3, by omega⟩
    have hc1 : (obs (j + 1)).text = l' := by
      rw [hl]
      exact hwin 1 (by omega)
    have hne1 : (obs (j + 1)).text ≠ "" := by
      rw [hwin 1 (by omega)]
      exact hne
    rcases waitGo_step_stable obs (f3 + 2) (j + 1) l' s' hc1 hne1 with hs1 | hs1
    · have hs1' : waitGo obs (f3 + 3) (j + 1) l' s' = some (j + 1) := hs1
      exact ⟨j + 1, by omega, heq.trans hs1'⟩
    · have hs1' : waitGo obs (f3 + 3) (j + 1) l' s'
          = waitGo obs (f3 + 2) (j + 2) l' (s' + 1) := hs1
      have hc2 : (obs (j + 2)).text = l' := by
        rw [hl]
        exact hwin 2 (by omega)
      have hne2 : (obs (j + 2)).text ≠ "" := by
        rw [hwin 2 (by omega)]
        exact hne
      rcases waitGo_step_stable obs (f3 + 1) (j + 2) l' (s' + 1) hc2 hne2 with hs2 | hs2
      · have hs2' : waitGo obs (f3 + 2) (j + 2) l' (s' + 1) = some (j + 2) := hs2
        exact ⟨j + 2, by omega, heq.trans (hs1'.trans hs2')⟩
      · have hs2' : waitGo obs (f3 + 2) (j + 2) l' (s' + 1)
            = waitGo obs (f3 + 1) (j + 3) l' (s' + 2) := hs2
        have hc3 : (obs (j + 3)).text = l' := by
          rw [hl]
          exact hwin 3 (by omega)
        have hne3 : (obs (j + 3)).text ≠ "" := by
          rw [hwin 3 (by omega)]
          exact hne
        have hs3 : waitGo obs (f3 + 1) (j + 3) l' (s' + 2) = some (j + 3) :=
          waitGo_step_returns obs f3 (j + 3) l' (s' + 2) hc3 hne3 hmark (by omega)
        exact ⟨j + 3, le_refl _, heq.trans (hs1'.trans (hs2'.trans hs3))⟩

/-! ## Claim C5 — response-stability polling -/

/-- C5: the polling loop reports success only after observing the same
non-empty extracted text unchanged on 3 consecutive polls (four equal
observations ending at the success poll) with no stop marker present or a
microphone marker present at that poll — in particular it never reports
success while the text is still changing between polls, however non-empty —
and conversely, once such a stable window with the marker condition occurs
within the timeout budget, success is reported no later than that window's
final poll. -/
theorem claim_C5_response_stability_polling :
    (∀ (obs : Nat → PollObs) (N r : Nat), _wait_for_response obs N = some r →
      3 ≤ r ∧ r < N ∧ (obs r).text ≠ ""
      ∧ (obs (r - 1)).text = (obs r).text
      ∧ (obs (r - 2)).text = (obs r).text
      ∧ (obs (r - 3)).text = (obs r).text
      ∧ ((obs r).stopPresent = false ∨ (obs r).micPresent = true))
    ∧ (∀ (obs : Nat → PollObs) (N j : Nat),
        (∀ k, k ≤ 3 → (obs (j + k)).text = (obs j).text) →
        (obs j).text ≠ "" →
        ((obs (j + 3)).stopPresent = false ∨ (obs (j + 3)).micPresent = true) →
        j + 3 < N →
        ∃ r, r ≤ j + 3 ∧ _wait_for_response obs N = some r) := by
  constructor
  · intro obs N r h
    obtain ⟨g1, g2, g3, g4, g5, g6, g7⟩ :=
      waitGo_some_spec obs N 0 "" 0 r (waitInv_init obs) h
    exact ⟨g1, by omega, g3, g4, g5, g6, g7⟩
  · exact waitGo_window_success

/-- A constant healthy polling environment for the C5 witness. -/
def pollObsWitness : Nat → PollObs := fun _ => ⟨false, false, "stable answer"⟩

/-- Witness for C5: on a constant non-empty observation stream the loop
reports success at poll 3 — the soundness conclusions hold there — and the
window-completeness direction applies with the window starting at poll 0. -/
theorem claim_C5_response_stability_witness :
    (3 ≤ 3 ∧ 3 < 10 ∧ (pollObsWitness 3).text ≠ ""
      ∧ (pollObsWitness 2).text = (pollObsWitness 3).text
      ∧ (pollObsWitness 1).text = (pollObsWitness 3).text
      ∧ (pollObsWitness 0).text = (pollObsWitness 3).text
      ∧ ((pollObsWitness 3).stopPresent = false ∨ (pollObsWitness 3).micPresent = true))
    ∧ (∃ r, r ≤ 0 + 3 ∧ _wait_for_response pollObsWitness 10 = some r) := by
  constructor
  · exact claim_C5_response_stability_polling.1 pollObsWitness 10 3 (by decide)
  · exact claim_C5_response_stability_polling.2 pollObsWitness 10 0
      (by decide) (by decide) (by decide) (by decide)

end PromptEnhancer
